import Mathlib

/-!
Shallow embedding of the MCP multi-server client layer:
`mcp_client_manager.py` (class `MCPClientManager`: `connect_all`,
`_discover_capabilities`, `call_tool`, `get_tool_schema`) and
`mcp_chatbot.py` (class `MCP_ChatBot`: `get_resource`, the prompt-content
extraction inside `execute_prompt`, and the teardown loop of
`connect_to_servers_and_run`).

Modelling conventions:
* Python dictionaries are insertion-ordered association lists; `aupdate`
  overwrites the value of an existing key in place, exactly as `d[k] = v`
  does, and `alookup` is `d.get(k)`.
* A live `ClientSession` object is identified by the order in which it was
  created (a natural number).
* An awaited protocol call that raises is modelled by `ListResult.err`;
  a call that returns is `ListResult.ok items`.
* The behaviour of one configured server during the connect phase is a
  `ServerSpec`: its descriptor fields that the control flow branches on
  (`transport`, presence of `url`) plus the outcome of each awaited step.
-/

/-- Result of an awaited listing call (`list_tools`, `list_resources`,
`list_resource_templates`, `list_prompts`): either a returned list of items
or a raised exception. -/
inductive ListResult (α : Type) where
  | ok (items : List α)
  | err
deriving DecidableEq

/-- A tool object returned by `session.list_tools()`; `inputSchema` is kept
opaque as a string. -/
structure MCPTool where
  name : String
  description : String
  inputSchema : String
deriving DecidableEq

/-- A resource object returned by `session.list_resources()`. -/
structure MCPResource where
  uri : String
  name : String
  description : String
  mimeType : String
deriving DecidableEq

/-- A resource-template object returned by `session.list_resource_templates()`. -/
structure MCPResourceTemplate where
  uriTemplate : String
  name : String
  description : String
  mimeType : String
deriving DecidableEq

/-- A prompt object returned by `session.list_prompts()`; `arguments = none`
models a prompt object without an `arguments` attribute (the code branches
on `hasattr`). -/
structure MCPPrompt where
  name : String
  description : String
  arguments : Option (List String)
deriving DecidableEq

/-- The model-facing entry appended to `available_tools`: the dictionary
`\x7b"type": "function", "function": \x7b"name", "description", "parameters"\x7d\x7d`;
the constant `"type"` field is omitted, the `"function"` payload is kept. -/
structure ToolEntry where
  name : String
  description : String
  parameters : String
deriving DecidableEq

/-- The entry appended to `available_prompts`: `arguments` is the attribute
value when present and `[]` otherwise. -/
structure PromptEntry where
  name : String
  description : String
  arguments : List String
deriving DecidableEq

/-- Transport kind of a server descriptor (`server.get("transport", "stdio")`). -/
inductive Transport where
  | stdio
  | sse
  | http
deriving DecidableEq

/-- One configured server together with the outcome of each awaited step of
its connection attempt.  `connectOk = false` models an exception raised while
building the transport, entering its context, or initializing the session;
the four `ListResult` fields model the four discovery calls. -/
structure ServerSpec where
  name : String
  transport : Transport
  hasUrl : Bool
  connectOk : Bool
  toolsResult : ListResult MCPTool
  resourcesResult : ListResult MCPResource
  templatesResult : ListResult MCPResourceTemplate
  promptsResult : ListResult MCPPrompt
deriving DecidableEq

/-- Association-list rendering of `dict.get`. -/
def alookup {α : Type} : List (String × α) → String → Option α
  | [], _ => none
  | p :: rest, k => if p.1 = k then some p.2 else alookup rest k

/-- Association-list rendering of `d[k] = v`: overwrite in place when the key
exists, append otherwise. -/
def aupdate {α : Type} : List (String × α) → String → α → List (String × α)
  | [], k, v => [(k, v)]
  | p :: rest, k, v => if p.1 = k then (p.1, v) :: rest else p :: aupdate rest k v

/-- Aggregate client state of `MCPClientManager` (the fields mutated by
`connect_all` and read by the routing operations), plus the list of server
names for which a per-server connection failure was reported and a counter

producing fresh session identities. -/
structure ManagerState where
  sessions : List (String × Nat)
  tool_to_server : List (String × String)
  resource_to_server : List (String × String)
  resource_templates_to_server : List (String × String)
  prompt_to_server : List (String × String)
  available_tools : List ToolEntry
  available_resources : List MCPResource
  available_resource_templates : List MCPResourceTemplate
  available_prompts : List PromptEntry
  errors : List String
  nextSession : Nat
deriving DecidableEq

/-- The freshly constructed manager: every registry empty. -/
def initState : ManagerState :=
  ⟨[], [], [], [], [], [], [], [], [], [], 0⟩

/-- Projection of a discovered tool into its `available_tools` entry. -/
def toolEntryOf (t : MCPTool) : ToolEntry :=
  ⟨t.name, t.description, t.inputSchema⟩

/-- Projection of a discovered prompt into its `available_prompts` entry
(`prompt.arguments if hasattr(prompt, "arguments") else []`). -/
def promptEntryOf (p : MCPPrompt) : PromptEntry :=
  ⟨p.name, p.description, p.arguments.getD []⟩

/-- Body of the `for tool in tools` loop of `_discover_capabilities`. -/
def registerTool (srv : String) (st : ManagerState) (t : MCPTool) : ManagerState :=
  { st with
    tool_to_server := aupdate st.tool_to_server t.name srv,
    available_tools := st.available_tools ++ [toolEntryOf t] }

/-- Body of the `for res in res_response.resources` loop. -/
def registerResource (srv : String) (st : ManagerState) (r : MCPResource) : ManagerState :=
  { st with
    resource_to_server := aupdate st.resource_to_server r.uri srv,
    available_resources := st.available_resources ++ [r] }

/-- Body of the `for tmpl in tmpl_response.resourceTemplates` loop. -/
def registerTemplate (srv : String) (st : ManagerState) (t : MCPResourceTemplate) : ManagerState :=
  { st with
    resource_templates_to_server := aupdate st.resource_templates_to_server t.uriTemplate srv,
    available_resource_templates := st.available_resource_templates ++ [t] }

/-- Body of the `for prompt in prompt_response.prompts` loop. -/
def registerPrompt (srv : String) (st : ManagerState) (p : MCPPrompt) : ManagerState :=
  { st with
    prompt_to_server := aupdate st.prompt_to_server p.name srv,
    available_prompts := st.available_prompts ++ [promptEntryOf p] }

/-- The whole tools loop. -/
def registerTools (srv : String) (st : ManagerState) (ts : List MCPTool) : ManagerState :=
  ts.foldl (registerTool srv) st

/-- The whole resources loop. -/
def registerResources (srv : String) (st : ManagerState) (rs : List MCPResource) : ManagerState :=
  rs.foldl (registerResource srv) st

/-- The whole resource-templates loop. -/
def registerTemplates (srv : String) (st : ManagerState) (ts : List MCPResourceTemplate) : ManagerState :=
  ts.foldl (registerTemplate srv) st

/-- The whole prompts loop. -/
def registerPrompts (srv : String) (st : ManagerState) (ps : List MCPPrompt) : ManagerState :=
  ps.foldl (registerPrompt srv) st

/-- The `try: ... list_resources ... except Exception: pass` block of
`_discover_capabilities`: a raised listing call leaves the state untouched. -/
def resourcesStage (srv : String) (r : ListResult MCPResource) (st : ManagerState) : ManagerState :=
  match r with
  | .ok rs => registerResources srv st rs
  | .err => st

/-- The guarded `list_resource_templates` block of `_discover_capabilities`. -/
def templatesStage (srv : String) (r : ListResult MCPResourceTemplate) (st : ManagerState) : ManagerState :=
  match r with
  | .ok ts => registerTemplates srv st ts
  | .err => st

/-- The guarded `list_prompts` block of `_discover_capabilities`. -/
def promptsStage (srv : String) (r : ListResult MCPPrompt) (st : ManagerState) : ManagerState :=
  match r with
  | .ok ps => registerPrompts srv st ps
  | .err => st

/-- `MCPClientManager._discover_capabilities`: `list_tools` runs outside any
try/except, so its failure yields `none` (the exception propagates to the
caller); each of the three later listing calls is wrapped in
`try ... except Exception: pass`, so its failure leaves the state of that
kind untouched and the remaining kinds still run. -/
def discoverCapabilities (srv : String) (s : ServerSpec) (st : ManagerState) :
    Option ManagerState :=
  match s.toolsResult with
  | .err => none
  | .ok ts =>
    some (promptsStage srv s.promptsResult
      (templatesStage srv s.templatesResult
        (resourcesStage srv s.resourcesResult (registerTools srv st ts))))

/-- The `if not url: print(error); continue` guard of the sse and http
branches of `connect_all` (stdio needs no url). -/
def urlMissing (s : ServerSpec) : Bool :=
  match s.transport with
  | .stdio => false
  | .sse => !s.hasUrl
  | .http => !s.hasUrl

/-- What `connect_all` did for one descriptor: whether a session ended up
registered under its name, and whether a per-server error message was
printed for it. -/
structure DescOutcome where
  registered : Bool
  errored : Bool
deriving DecidableEq

/-- One iteration of the `for server in self.server_configs` loop of
`connect_all`.  Order of events, as in the source: url guard, transport and
session construction plus `session.initialize()` (collapsed into
`connectOk`), registration `self.sessions[server_name] = session`, then
`_discover_capabilities`; any exception up to there is caught by the
per-server `except`, which prints a failure message and moves on. -/
def connectStep (st : ManagerState) (s : ServerSpec) : ManagerState × DescOutcome :=
  if urlMissing s then
    ({ st with errors := st.errors ++ [s.name] }, ⟨false, true⟩)
  else if !s.connectOk then
    ({ st with errors := st.errors ++ [s.name] }, ⟨false, true⟩)
  else
    let st1 := { st with
      sessions := aupdate st.sessions s.name st.nextSession,
      nextSession := st.nextSession + 1 }
    match discoverCapabilities s.name s st1 with
    | some st2 => (st2, ⟨true, false⟩)
    | none => ({ st1 with errors := st1.errors ++ [s.name] }, ⟨true, true⟩)

/-- The whole loop of `connect_all`, returning the final state and, for the
record, the per-descriptor outcome trace. -/
def runConnect : ManagerState → List ServerSpec → ManagerState × List (ServerSpec × DescOutcome)
  | st, [] => (st, [])
  | st, s :: rest =>
    let p := connectStep st s
    let r := runConnect p.1 rest
    (r.1, (s, p.2) :: r.2)

/-- `MCPClientManager.connect_all` starting from a fresh manager. -/
def connectAll (specs : List ServerSpec) : ManagerState :=
  (runConnect initState specs).1

/-- The per-descriptor outcome trace of `connect_all`. -/
def connectTrace (specs : List ServerSpec) : List (ServerSpec × DescOutcome) :=
  (runConnect initState specs).2

/-- The outcome of one descriptor, which depends only on the descriptor
itself (helper used to characterise `connectTrace`). -/
def outcomeOf (s : ServerSpec) : DescOutcome :=
  if urlMissing s then ⟨false, true⟩
  else if !s.connectOk then ⟨false, true⟩
  else match s.toolsResult with
    | .ok _ => ⟨true, false⟩
    | .err => ⟨true, true⟩

/-- Observable behaviour of `MCPClientManager.call_tool`. -/
inductive ToolCallOutcome where
  | unknownToolError (name : String)
  | sessionKeyError (server : String)
  | proxied (sessionId : Nat) (name : String) (args : String)
deriving DecidableEq

/-- `MCPClientManager.call_tool`: look the tool up in `tool_to_server`;
`if not server_name:` raises the unknown-tool `ValueError` both when the
lookup returns `None` and when it returns the empty string (Python
truthiness); otherwise `self.sessions[server_name]` is indexed (a missing
key would raise `KeyError`) and the call is forwarded unmodified. -/
def call_tool (st : ManagerState) (toolName : String) (args : String) : ToolCallOutcome :=
  match alookup st.tool_to_server toolName with
  | none => .unknownToolError toolName
  | some srv =>
    if srv = "" then .unknownToolError toolName
    else
      match alookup st.sessions srv with
      | none => .sessionKeyError srv
      | some sid => .proxied sid toolName args

/-- `MCPClientManager.get_tool_schema`: scan `available_tools` in order and
return the `parameters` of the first entry whose function name matches. -/
def get_tool_schema (st : ManagerState) (toolName : String) : Option String :=
  match st.available_tools.find? (fun e => e.name == toolName) with
  | some e => some e.parameters
  | none => none

/-- Character-level rendering of the Python `str.startswith` test (the
built-in `String.startsWith` does not reduce in the kernel). -/
def charsStartWith : List Char → List Char → Bool
  | _, [] => true
  | [], _ :: _ => false
  | c :: cs, d :: ds => if c = d then charsStartWith cs ds else false

/-- `s.startswith(p)` for Lean strings. -/
def pyStartsWith (s p : String) : Bool :=
  charsStartWith s.data p.data

/-- `template_uri.split("\x7b")[0]`: the literal part of a template before its
first opening brace (character code 123), the whole string when there is
none. -/
def templateHead (t : String) : String :=
  ⟨t.data.takeWhile (fun c => c ≠ Char.ofNat 123)⟩

/-- Resolution of a resource URI to a server name inside
`MCP_ChatBot.get_resource`: exact lookup first; the template scan runs when
the lookup returned `None` or the empty string (`if not server_name:`),
taking the first template whose literal head is a prefix of the URI and
leaving the exact-lookup value in place when no template matches. -/
def resolveResourceServer (st : ManagerState) (uri : String) : Option String :=
  let exact := alookup st.resource_to_server uri
  if exact = none ∨ exact = some "" then
    match st.resource_templates_to_server.find? (fun p => pyStartsWith uri (templateHead p.1)) with
    | some p => some p.2
    | none => exact
  else exact

/-- Observable behaviour of `MCP_ChatBot.get_resource`: which session (by
identity) `read_resource` is invoked on, or the not-found report. -/
inductive ResourceOutcome where
  | notFound
  | read (sessionId : Nat) (uri : String)
deriving DecidableEq

/-- `MCP_ChatBot.get_resource`: resolve a server name, fetch its session via
`sessions.get`, fall back to `sessions.get("research")` when no session was
found and the URI starts with `papers://`, and report not-found when still
without a session. -/
def get_resource (st : ManagerState) (uri : String) : ResourceOutcome :=
  let server_name := resolveResourceServer st uri
  let session := server_name.bind (alookup st.sessions)
  let session2 :=
    if session = none ∧ pyStartsWith uri "papers://" then alookup st.sessions "research"
    else session
  match session2 with
  | none => .notFound
  | some sid => .read sid uri

/-- One item of a list-shaped prompt message content: either an object with
a `text` attribute or one without (whose `str(item)` rendering is used). -/
inductive ContentItem where
  | withText (text : String)
  | plain (repr : String)
deriving DecidableEq

/-- The three shapes of `result.messages[0].content` handled by
`MCP_ChatBot.execute_prompt`: a bare string, a single object exposing a
`text` attribute, or a sequence of content items. -/
inductive PromptContent where
  | str (s : String)
  | objWithText (text : String)
  | seq (items : List ContentItem)
deriving DecidableEq

/-- `item.text if hasattr(item, "text") else str(item)`. -/
def itemText : ContentItem → String
  | .withText t => t
  | .plain r => r

/-- The content-to-text extraction inside `MCP_ChatBot.execute_prompt`:
`isinstance(str)` branch, `hasattr(content, "text")` branch, and the
`" ".join(...)` branch over a sequence. -/
def extractPromptText : PromptContent → String
  | .str s => s
  | .objWithText t => t
  | .seq items => String.intercalate " " (items.map itemText)

/-- Kind of one context entered during the connect loop of
`MCP_ChatBot.connect_to_servers_and_run`. -/
inductive CtxKind where
  | transport
  | session
deriving DecidableEq

/-- One acquired context stored in `server_contexts`; `releaseOk = false`
models an `__aexit__` call that raises. -/
structure AcquiredCtx where
  kind : CtxKind
  server : String
  releaseOk : Bool
deriving DecidableEq

/-- The record of one release attempt during teardown; `ok = false` means
the raised exception was caught and printed. -/
structure ReleaseEvent where
  ctx : AcquiredCtx
  ok : Bool
deriving DecidableEq

/-- The `for ctx in reversed(server_contexts)` loop body: each `__aexit__`
is awaited inside its own `try ... except` so the loop always moves on. -/
def releaseLoop : List AcquiredCtx → List ReleaseEvent
  | [] => []
  | c :: rest => ⟨c, c.releaseOk⟩ :: releaseLoop rest

/-- The `finally:` teardown of `connect_to_servers_and_run`: walk the
acquisition list in reverse, attempting every release. -/
def shutdownContexts (server_contexts : List AcquiredCtx) : List ReleaseEvent :=
  releaseLoop server_contexts.reverse

/-- Release behaviour of the two contexts one server contributes to
`server_contexts` (transport first, session second, as the connect loop
appends them). -/
structure ChatServer where
  name : String
  transportReleaseOk : Bool
  sessionReleaseOk : Bool
deriving DecidableEq

/-- The two contexts appended for one server by the connect loop:
`client_ctx` then `session_ctx`. -/
def serverCtxPair (s : ChatServer) : List AcquiredCtx :=
  [⟨.transport, s.name, s.transportReleaseOk⟩, ⟨.session, s.name, s.sessionReleaseOk⟩]

/-- The full `server_contexts` list built by a connect loop that reaches
every server. -/
def chatbotContexts : List ChatServer → List AcquiredCtx
  | [] => []
  | s :: rest => serverCtxPair s ++ chatbotContexts rest

/-- Modelled from the spec: the release order the spec demands — servers in
reverse connection order, each session context released before the
transport context it sits on.  Used to compare the teardown loop against
the spec sentence on shutdown ordering. -/
def specShutdownOrder : List ChatServer → List ReleaseEvent
  | [] => []
  | s :: rest =>
    specShutdownOrder rest ++
      [⟨⟨.session, s.name, s.sessionReleaseOk⟩, s.sessionReleaseOk⟩,
       ⟨⟨.transport, s.name, s.transportReleaseOk⟩, s.transportReleaseOk⟩]

/-- A stdio server that connects cleanly and exposes exactly the given
tools, with no resources, templates, or prompts. -/
def simpleSpec (name : String) (ts : List MCPTool) : ServerSpec :=
  ⟨name, .stdio, false, true, .ok ts, .ok [], .ok [], .ok []⟩

/-- A stdio server whose mandatory `list_tools` call raises after a clean
connect and session initialization. -/
def toolsErrSpec : ServerSpec :=
  ⟨"srv", .stdio, false, true, .err, .ok [], .ok [], .ok []⟩

/-- A server configured with the empty string as its name, exposing one
tool; used to exercise the Python truthiness test in `call_tool`. -/
def emptyNameSpec : ServerSpec :=
  ⟨"", .stdio, false, true, .ok [⟨"t", "d", "schema"⟩], .ok [], .ok [], .ok []⟩

/-- A server named `""` exposing one concrete resource; its registrations
carry the empty string as server name. -/
def emptyNameResourceSpec : ServerSpec :=
  ⟨"", .stdio, false, true, .ok [], .ok [⟨"papers://x", "r", "d", "m"⟩], .ok [], .ok []⟩

/-- A server named `A` exposing one resource template whose literal head is
`papers://`. -/
def templateServerSpec : ServerSpec :=
  ⟨"A", .stdio, false, true, .ok [], .ok [], .ok [⟨"papers://\x7bt\x7d", "n", "d", "m"⟩], .ok []⟩

/-- The research server with its paper-listing template, as in the spec
example. -/
def researchSpec : ServerSpec :=
  ⟨"research", .stdio, false, true, .ok [], .ok [],
    .ok [⟨"papers://\x7btopic\x7d/list", "n", "d", "m"⟩], .ok []⟩

/-- A research server exposing no capability at all, so that no template
matches and only the hardcoded fallback can find its session. -/
def bareResearchSpec : ServerSpec :=
  ⟨"research", .stdio, false, true, .ok [], .ok [], .ok [], .ok []⟩

/-- A server whose `list_resources` call raises while the other three
listing calls succeed. -/
def resErrSpec : ServerSpec :=
  ⟨"r", .stdio, false, true, .ok [⟨"t", "d", "s"⟩], .err, .ok [],
    .ok [⟨"p", "d", some ["x"]⟩]⟩

lemma alookup_aupdate {α : Type} (m : List (String × α)) (k k' : String) (v : α) :
    alookup (aupdate m k v) k' = if k' = k then some v else alookup m k' := by
  induction m with
  | nil =>
    by_cases h : k' = k
    · subst h; simp [aupdate, alookup]
    · simp [aupdate, alookup, h, Ne.symm h]
  | cons p rest ih =>
    by_cases hp : p.1 = k
    · by_cases h : k' = k
      · subst h; simp [aupdate, alookup, hp]
      · simp [aupdate, alookup, hp, h, Ne.symm h]
    · by_cases h : p.1 = k'
      · have hk : ¬ k' = k := fun hh => hp (h.trans hh)
        simp [aupdate, alookup, hp, h, hk]
      · simp [aupdate, alookup, hp, h, ih]

lemma alookup_aupdate_self {α : Type} (m : List (String × α)) (k : String) (v : α) :
    alookup (aupdate m k v) k = some v := by
  simp [alookup_aupdate]

lemma alookup_aupdate_isSome {α : Type} (m : List (String × α)) (k k' : String) (v : α)
    (h : (alookup m k').isSome = true) :
    (alookup (aupdate m k v) k').isSome = true := by
  rw [alookup_aupdate]
  by_cases hk : k' = k <;> simp [hk, h]

lemma registerTools_unchanged (srv : String) (ts : List MCPTool) : ∀ st : ManagerState,
    (registerTools srv st ts).sessions = st.sessions ∧
    (registerTools srv st ts).errors = st.errors ∧
    (registerTools srv st ts).nextSession = st.nextSession ∧
    (registerTools srv st ts).resource_to_server = st.resource_to_server ∧
    (registerTools srv st ts).resource_templates_to_server = st.resource_templates_to_server ∧
    (registerTools srv st ts).prompt_to_server = st.prompt_to_server ∧
    (registerTools srv st ts).available_resources = st.available_resources ∧
    (registerTools srv st ts).available_resource_templates = st.available_resource_templates ∧
    (registerTools srv st ts).available_prompts = st.available_prompts := by
  induction ts with
  | nil => intro st; simp [registerTools]
  | cons t ts ih =>
    intro st
    simpa [registerTools, registerTool] using ih (registerTool srv st t)

lemma registerTools_available (srv : String) (ts : List MCPTool) : ∀ st : ManagerState,
    (registerTools srv st ts).available_tools = st.available_tools ++ ts.map toolEntryOf := by
  induction ts with
  | nil => intro st; simp [registerTools]
  | cons t ts ih =>
    intro st
    have hcons : registerTools srv st (t :: ts) = registerTools srv (registerTool srv st t) ts := rfl
    rw [hcons, ih (registerTool srv st t)]
    simp [registerTool]

lemma registerTools_toolmap (srv : String) (ts : List MCPTool) : ∀ (st : ManagerState) (k : String),
    alookup (registerTools srv st ts).tool_to_server k =
      if ∃ x ∈ ts, x.name = k then some srv else alookup st.tool_to_server k := by
  induction ts with
  | nil => intro st k; simp [registerTools]
  | cons t ts ih =>
    intro st k
    have hcons : registerTools srv st (t :: ts) = registerTools srv (registerTool srv st t) ts := rfl
    rw [hcons, ih (registerTool srv st t) k]
    by_cases hex : ∃ x ∈ ts, x.name = k
    · simp [hex, List.exists_mem_cons_iff]
    · by_cases hname : t.name = k
      · subst hname
        simp [hex, List.exists_mem_cons_iff, registerTool, alookup_aupdate]
      · simp [hex, List.exists_mem_cons_iff, hname, registerTool, alookup_aupdate,
          Ne.symm hname]

lemma registerResources_unchanged (srv : String) (rs : List MCPResource) : ∀ st : ManagerState,
    (registerResources srv st rs).sessions = st.sessions ∧
    (registerResources srv st rs).errors = st.errors ∧
    (registerResources srv st rs).nextSession = st.nextSession ∧
    (registerResources srv st rs).tool_to_server = st.tool_to_server ∧
    (registerResources srv st rs).resource_templates_to_server = st.resource_templates_to_server ∧
    (registerResources srv st rs).prompt_to_server = st.prompt_to_server ∧
    (registerResources srv st rs).available_tools = st.available_tools ∧
    (registerResources srv st rs).available_resource_templates = st.available_resource_templates ∧
    (registerResources srv st rs).available_prompts = st.available_prompts := by
  induction rs with
  | nil => intro st; simp [registerResources]
  | cons r rs ih =>
    intro st
    simpa [registerResources, registerResource] using ih (registerResource srv st r)

lemma registerResources_available (srv : String) (rs : List MCPResource) : ∀ st : ManagerState,
    (registerResources srv st rs).available_resources = st.available_resources ++ rs := by
  induction rs with
  | nil => intro st; simp [registerResources]
  | cons r rs ih =>
    intro st
    have hcons : registerResources srv st (r :: rs) = registerResources srv (registerResource srv st r) rs := rfl
    rw [hcons, ih (registerResource srv st r)]
    simp [registerResource]

lemma registerTemplates_unchanged (srv : String) (ts : List MCPResourceTemplate) : ∀ st : ManagerState,
    (registerTemplates srv st ts).sessions = st.sessions ∧
    (registerTemplates srv st ts).errors = st.errors ∧
    (registerTemplates srv st ts).nextSession = st.nextSession ∧
    (registerTemplates srv st ts).tool_to_server = st.tool_to_server ∧
    (registerTemplates srv st ts).resource_to_server = st.resource_to_server ∧
    (registerTemplates srv st ts).prompt_to_server = st.prompt_to_server ∧
    (registerTemplates srv st ts).available_tools = st.available_tools ∧
    (registerTemplates srv st ts).available_resources = st.available_resources ∧
    (registerTemplates srv st ts).available_prompts = st.available_prompts := by
  induction ts with
  | nil => intro st; simp [registerTemplates]
  | cons t ts ih =>
    intro st
    simpa [registerTemplates, registerTemplate] using ih (registerTemplate srv st t)

lemma registerTemplates_available (srv : String) (ts : List MCPResourceTemplate) : ∀ st : ManagerState,
    (registerTemplates srv st ts).available_resource_templates = st.available_resource_templates ++ ts := by
  induction ts with
  | nil => intro st; simp [registerTemplates]
  | cons t ts ih =>
    intro st
    have hcons : registerTemplates srv st (t :: ts) = registerTemplates srv (registerTemplate srv st t) ts := rfl
    rw [hcons, ih (registerTemplate srv st t)]
    simp [registerTemplate]

lemma registerPrompts_unchanged (srv : String) (ps : List MCPPrompt) : ∀ st : ManagerState,
    (registerPrompts srv st ps).sessions = st.sessions ∧
    (registerPrompts srv st ps).errors = st.errors ∧
    (registerPrompts srv st ps).nextSession = st.nextSession ∧
    (registerPrompts srv st ps).tool_to_server = st.tool_to_server ∧
    (registerPrompts srv st ps).resource_to_server = st.resource_to_server ∧
    (registerPrompts srv st ps).resource_templates_to_server = st.resource_templates_to_server ∧
    (registerPrompts srv st ps).available_tools = st.available_tools ∧
    (registerPrompts srv st ps).available_resources = st.available_resources ∧
    (registerPrompts srv st ps).available_resource_templates = st.available_resource_templates := by
  induction ps with
  | nil => intro st; simp [registerPrompts]
  | cons p ps ih =>
    intro st
    simpa [registerPrompts, registerPrompt] using ih (registerPrompt srv st p)

lemma registerPrompts_available (srv : String) (ps : List MCPPrompt) : ∀ st : ManagerState,
    (registerPrompts srv st ps).available_prompts = st.available_prompts ++ ps.map promptEntryOf := by
  induction ps with
  | nil => intro st; simp [registerPrompts]
  | cons p ps ih =>
    intro st
    have hcons : registerPrompts srv st (p :: ps) = registerPrompts srv (registerPrompt srv st p) ps := rfl
    rw [hcons, ih (registerPrompt srv st p)]
    simp [registerPrompt]

lemma resourcesStage_char (srv : String) (r : ListResult MCPResource) (st : ManagerState) :
    (resourcesStage srv r st).sessions = st.sessions ∧
    (resourcesStage srv r st).errors = st.errors ∧
    (resourcesStage srv r st).nextSession = st.nextSession ∧
    (resourcesStage srv r st).tool_to_server = st.tool_to_server ∧
    (resourcesStage srv r st).available_tools = st.available_tools ∧
    (resourcesStage srv r st).resource_templates_to_server = st.resource_templates_to_server ∧
    (resourcesStage srv r st).prompt_to_server = st.prompt_to_server ∧
    (resourcesStage srv r st).available_resource_templates = st.available_resource_templates ∧
    (resourcesStage srv r st).available_prompts = st.available_prompts ∧
    (resourcesStage srv r st).available_resources = st.available_resources ++
      (match r with | .ok rs => rs | .err => []) := by
  cases r with
  | ok rs =>
    have h := registerResources_unchanged srv rs st
    have h2 := registerResources_available srv rs st
    exact ⟨h.1, h.2.1, h.2.2.1, h.2.2.2.1, h.2.2.2.2.2.2.1, h.2.2.2.2.1, h.2.2.2.2.2.1,
      h.2.2.2.2.2.2.2.1, h.2.2.2.2.2.2.2.2, h2⟩
  | err => simp [resourcesStage]

lemma templatesStage_char (srv : String) (r : ListResult MCPResourceTemplate) (st : ManagerState) :
    (templatesStage srv r st).sessions = st.sessions ∧
    (templatesStage srv r st).errors = st.errors ∧
    (templatesStage srv r st).nextSession = st.nextSession ∧
    (templatesStage srv r st).tool_to_server = st.tool_to_server ∧
    (templatesStage srv r st).available_tools = st.available_tools ∧
    (templatesStage srv r st).resource_to_server = st.resource_to_server ∧
    (templatesStage srv r st).prompt_to_server = st.prompt_to_server ∧
    (templatesStage srv r st).available_resources = st.available_resources ∧
    (templatesStage srv r st).available_prompts = st.available_prompts ∧
    (templatesStage srv r st).available_resource_templates = st.available_resource_templates ++
      (match r with | .ok l => l | .err => []) := by
  cases r with
  | ok l =>
    have h := registerTemplates_unchanged srv l st
    have h2 := registerTemplates_available srv l st
    exact ⟨h.1, h.2.1, h.2.2.1, h.2.2.2.1, h.2.2.2.2.2.2.1, h.2.2.2.2.1,
      h.2.2.2.2.2.1, h.2.2.2.2.2.2.2.1, h.2.2.2.2.2.2.2.2, h2⟩
  | err => simp [templatesStage]

lemma promptsStage_char (srv : String) (r : ListResult MCPPrompt) (st : ManagerState) :
    (promptsStage srv r st).sessions = st.sessions ∧
    (promptsStage srv r st).errors = st.errors ∧
    (promptsStage srv r st).nextSession = st.nextSession ∧
    (promptsStage srv r st).tool_to_server = st.tool_to_server ∧
    (promptsStage srv r st).available_tools = st.available_tools ∧
    (promptsStage srv r st).resource_to_server = st.resource_to_server ∧
    (promptsStage srv r st).resource_templates_to_server = st.resource_templates_to_server ∧
    (promptsStage srv r st).available_resources = st.available_resources ∧
    (promptsStage srv r st).available_resource_templates = st.available_resource_templates ∧
    (promptsStage srv r st).available_prompts = st.available_prompts ++
      (match r with | .ok l => l.map promptEntryOf | .err => []) := by
  cases r with
  | ok l =>
    have h := registerPrompts_unchanged srv l st
    have h2 := registerPrompts_available srv l st
    exact ⟨h.1, h.2.1, h.2.2.1, h.2.2.2.1, h.2.2.2.2.2.2.1, h.2.2.2.2.1,
      h.2.2.2.2.2.1, h.2.2.2.2.2.2.2.1, h.2.2.2.2.2.2.2.2, h2⟩
  | err => simp [promptsStage]

lemma discover_ok (srv : String) (s : ServerSpec) (st : ManagerState) (ts : List MCPTool)
    (h : s.toolsResult = .ok ts) :
    ∃ st', discoverCapabilities srv s st = some st' ∧
      st'.sessions = st.sessions ∧
      st'.errors = st.errors ∧
      st'.nextSession = st.nextSession ∧
      st'.available_tools = st.available_tools ++ ts.map toolEntryOf ∧
      (∀ k, alookup st'.tool_to_server k =
        if ∃ x ∈ ts, x.name = k then some srv else alookup st.tool_to_server k) ∧
      st'.available_resources = st.available_resources ++
        (match s.resourcesResult with | .ok rs => rs | .err => []) ∧
      st'.available_resource_templates = st.available_resource_templates ++
        (match s.templatesResult with | .ok l => l | .err => []) ∧
      st'.available_prompts = st.available_prompts ++
        (match s.promptsResult with | .ok l => l.map promptEntryOf | .err => []) := by
  have hT := registerTools_unchanged srv ts st
  have hTa := registerTools_available srv ts st
  have hTm := registerTools_toolmap srv ts st
  set st1 := registerTools srv st ts with hst1
  have hR := resourcesStage_char srv s.resourcesResult st1
  set st2 := resourcesStage srv s.resourcesResult st1 with hst2
  have hM := templatesStage_char srv s.templatesResult st2
  set st3 := templatesStage srv s.templatesResult st2 with hst3
  have hP := promptsStage_char srv s.promptsResult st3
  set st4 := promptsStage srv s.promptsResult st3 with hst4
  refine ⟨st4, ?_, ?_, ?_, ?_, ?_, ?_, ?_, ?_, ?_⟩
  · simp [discoverCapabilities, h, hst1, hst2, hst3, hst4]
  · rw [hP.1, hM.1, hR.1, hT.1]
  · rw [hP.2.1, hM.2.1, hR.2.1, hT.2.1]
  · rw [hP.2.2.1, hM.2.2.1, hR.2.2.1, hT.2.2.1]
  · rw [hP.2.2.2.2.1, hM.2.2.2.2.1, hR.2.2.2.2.1, hTa]
  · intro k
    rw [hP.2.2.2.1, hM.2.2.2.1, hR.2.2.2.1, hTm k]
  · rw [hP.2.2.2.2.2.2.2.1, hM.2.2.2.2.2.2.2.1, hR.2.2.2.2.2.2.2.2.2,
      hT.2.2.2.2.2.2.1]
  · rw [hP.2.2.2.2.2.2.2.2.1, hM.2.2.2.2.2.2.2.2.2, hR.2.2.2.2.2.2.2.1,
      hT.2.2.2.2.2.2.2.1]
  · rw [hP.2.2.2.2.2.2.2.2.2, hM.2.2.2.2.2.2.2.2.1, hR.2.2.2.2.2.2.2.2.1,
      hT.2.2.2.2.2.2.2.2]

lemma connectStep_connectFail (st : ManagerState) (s : ServerSpec)
    (h : urlMissing s = true ∨ s.connectOk = false) :
    connectStep st s = ({ st with errors := st.errors ++ [s.name] }, ⟨false, true⟩) := by
  rcases h with h | h
  · simp [connectStep, h]
  · cases hu : urlMissing s <;> simp [connectStep, hu, h]

lemma connectStep_toolsErr (st : ManagerState) (s : ServerSpec)
    (hu : urlMissing s = false) (hc : s.connectOk = true) (h : s.toolsResult = .err) :
    connectStep st s =
      ({ st with
          sessions := aupdate st.sessions s.name st.nextSession,
          nextSession := st.nextSession + 1,
          errors := st.errors ++ [s.name] }, ⟨true, true⟩) := by
  simp [connectStep, discoverCapabilities, hu, hc, h]

lemma connectStep_success (st : ManagerState) (s : ServerSpec) (ts : List MCPTool)
    (hu : urlMissing s = false) (hc : s.connectOk = true) (h : s.toolsResult = .ok ts) :
    ∃ st', connectStep st s = (st', ⟨true, false⟩) ∧
      (∀ k, alookup st'.sessions k =
        if k = s.name then some st.nextSession else alookup st.sessions k) ∧
      st'.errors = st.errors ∧
      st'.available_tools = st.available_tools ++ ts.map toolEntryOf ∧
      (∀ k, alookup st'.tool_to_server k =
        if ∃ x ∈ ts, x.name = k then some s.name else alookup st.tool_to_server k) := by
  obtain ⟨st', hd, hsess, herr, _, hav, hmap, _, _, _⟩ :=
    discover_ok s.name s
      { st with
        sessions := aupdate st.sessions s.name st.nextSession,
        nextSession := st.nextSession + 1 } ts h
  refine ⟨st', ?_, ?_, ?_, ?_, ?_⟩
  · simp [connectStep, hu, hc, hd]
  · intro k
    rw [hsess]
    simp [alookup_aupdate]
  · rw [herr]
  · rw [hav]
  · intro k
    rw [hmap k]

lemma connectStep_snd (st : ManagerState) (s : ServerSpec) :
    (connectStep st s).2 = outcomeOf s := by
  cases hul : urlMissing s
  · cases hcon : s.connectOk
    · simp [connectStep, outcomeOf, hul, hcon]
    · cases htr : s.toolsResult
      · simp [connectStep, outcomeOf, discoverCapabilities, hul, hcon, htr]
      · simp [connectStep, outcomeOf, discoverCapabilities, hul, hcon, htr]
  · simp [connectStep, outcomeOf, hul]

lemma connectStep_mono (st : ManagerState) (s : ServerSpec) :
    (∀ k, (alookup st.sessions k).isSome = true →
      (alookup (connectStep st s).1.sessions k).isSome = true) ∧
    (∀ e, e ∈ st.available_tools → e ∈ (connectStep st s).1.available_tools) ∧
    (∀ k, (alookup st.tool_to_server k).isSome = true →
      (alookup (connectStep st s).1.tool_to_server k).isSome = true) := by
  by_cases hfail : urlMissing s = true ∨ s.connectOk = false
  · rw [connectStep_connectFail st s hfail]
    simp
  · push_neg at hfail
    have hu : urlMissing s = false := by
      cases h : urlMissing s
      · rfl
      · exact absurd h hfail.1
    have hc : s.connectOk = true := by
      cases h : s.connectOk
      · exact absurd h hfail.2
      · rfl
    cases htr : s.toolsResult with
    | err =>
      rw [connectStep_toolsErr st s hu hc htr]
      refine ⟨?_, ?_, ?_⟩
      · intro k hk
        simpa using alookup_aupdate_isSome st.sessions s.name k st.nextSession hk
      · intro e he; simpa using he
      · intro k hk; simpa using hk
    | ok ts =>
      obtain ⟨st', hpair, hsess, _, hav, hmap⟩ := connectStep_success st s ts hu hc htr
      rw [hpair]
      refine ⟨?_, ?_, ?_⟩
      · intro k hk
        rw [hsess k]
        by_cases hkn : k = s.name <;> simp [hkn, hk]
      · intro e he
        rw [hav]
        exact List.mem_append_left _ he
      · intro k hk
        rw [hmap k]
        by_cases hex : ∃ x ∈ ts, x.name = k <;> simp [hex, hk]

lemma runConnect_mono (specs : List ServerSpec) : ∀ st : ManagerState,
    (∀ k, (alookup st.sessions k).isSome = true →
      (alookup (runConnect st specs).1.sessions k).isSome = true) ∧
    (∀ e, e ∈ st.available_tools → e ∈ (runConnect st specs).1.available_tools) ∧
    (∀ k, (alookup st.tool_to_server k).isSome = true →
      (alookup (runConnect st specs).1.tool_to_server k).isSome = true) := by
  induction specs with
  | nil => intro st; simp [runConnect]
  | cons s rest ih =>
    intro st
    have h1 := connectStep_mono st s
    have h2 := ih (connectStep st s).1
    have hr : (runConnect st (s :: rest)).1 = (runConnect (connectStep st s).1 rest).1 := rfl
    rw [hr]
    exact ⟨fun k hk => h2.1 k (h1.1 k hk),
      fun e he => h2.2.1 e (h1.2.1 e he),
      fun k hk => h2.2.2 k (h1.2.2 k hk)⟩

lemma runConnect_reaches (specs : List ServerSpec) : ∀ (st : ManagerState) (s : ServerSpec)
    (ts : List MCPTool), s ∈ specs → urlMissing s = false → s.connectOk = true →
    s.toolsResult = .ok ts →
    (alookup (runConnect st specs).1.sessions s.name).isSome = true ∧
    ∀ t ∈ ts, toolEntryOf t ∈ (runConnect st specs).1.available_tools ∧
      (alookup (runConnect st specs).1.tool_to_server t.name).isSome = true := by
  induction specs with
  | nil => intro st s ts hmem; exact absurd hmem (List.not_mem_nil s)
  | cons s0 rest ih =>
    intro st s ts hmem hu hc htr
    have hr : (runConnect st (s0 :: rest)).1 = (runConnect (connectStep st s0).1 rest).1 := rfl
    rw [hr]
    rcases List.mem_cons.mp hmem with heq | hmem2
    · subst heq
      obtain ⟨st', hpair, hsess, _, hav, hmap⟩ := connectStep_success st s ts hu hc htr
      rw [hpair]
      have hmono := runConnect_mono rest st'
      constructor
      · exact hmono.1 s.name (by rw [hsess s.name]; simp)
      · intro t ht
        refine ⟨hmono.2.1 (toolEntryOf t) ?_, hmono.2.2 t.name ?_⟩
        · rw [hav]
          exact List.mem_append_right _ (List.mem_map_of_mem toolEntryOf ht)
        · rw [hmap t.name]
          split
          · simp
          · rename_i hno
            exact absurd ⟨t, ht, rfl⟩ hno
    · exact ih (connectStep st s0).1 s ts hmem2 hu hc htr

lemma runConnect_trace (specs : List ServerSpec) : ∀ st : ManagerState,
    (runConnect st specs).2 = specs.map (fun s => (s, outcomeOf s)) := by
  induction specs with
  | nil => intro st; simp [runConnect]
  | cons s rest ih =>
    intro st
    have hr : (runConnect st (s :: rest)).2 =
        (s, (connectStep st s).2) :: (runConnect (connectStep st s).1 rest).2 := rfl
    rw [hr, connectStep_snd, ih]
    simp

lemma find?_first {α : Type} (p : α → Bool) (pre : List α) (x : α) (post : List α)
    (hpre : ∀ y ∈ pre, p y = false) (hx : p x = true) :
    (pre ++ x :: post).find? p = some x := by
  induction pre with
  | nil => simp [List.find?_cons, hx]
  | cons a pre ih =>
    have ha : p a = false := hpre a (List.mem_cons_self a pre)
    simp only [List.cons_append, List.find?_cons, ha]
    exact ih (fun y hy => hpre y (List.mem_cons_of_mem a hy))

lemma releaseLoop_map (l : List AcquiredCtx) :
    (releaseLoop l).map ReleaseEvent.ctx = l := by
  induction l with
  | nil => simp [releaseLoop]
  | cons c rest ih => simp [releaseLoop, ih]

lemma releaseLoop_mem (l : List AcquiredCtx) (c : AcquiredCtx) (h : c ∈ l) :
    (⟨c, c.releaseOk⟩ : ReleaseEvent) ∈ releaseLoop l := by
  induction l with
  | nil => exact absurd h (List.not_mem_nil c)
  | cons a rest ih =>
    rcases List.mem_cons.mp h with heq | hmem
    · subst heq; simp [releaseLoop]
    · simp [releaseLoop]
      right
      simpa [releaseLoop] using ih hmem

lemma releaseLoop_append (a b : List AcquiredCtx) :
    releaseLoop (a ++ b) = releaseLoop a ++ releaseLoop b := by
  induction a with
  | nil => simp [releaseLoop]
  | cons c rest ih => simp [releaseLoop, ih]

lemma shutdown_chatbot_eq (servers : List ChatServer) :
    shutdownContexts (chatbotContexts servers) = specShutdownOrder servers := by
  induction servers with
  | nil => simp [chatbotContexts, shutdownContexts, releaseLoop, specShutdownOrder]
  | cons s rest ih =>
    have h1 : chatbotContexts (s :: rest) = serverCtxPair s ++ chatbotContexts rest := rfl
    rw [specShutdownOrder, ← ih]
    rw [h1, shutdownContexts, List.reverse_append, releaseLoop_append]
    simp [serverCtxPair, releaseLoop, shutdownContexts]

/-- Claim C8: the prompt-result message content normalization of
`execute_prompt` handles three shapes: a bare string is returned unchanged
(so `"hello"` stays `"hello"`), a single object exposing a text field yields
that field, and a sequence of text-carrying objects yields their text fields
joined with single spaces (so texts `"a"` and `"b"` give `"a b"`). -/
theorem prompt_content_normalization :
    (∀ s : String, extractPromptText (.str s) = s) ∧
    (∀ t : String, extractPromptText (.objWithText t) = t) ∧
    (∀ l : List String,
      extractPromptText (.seq (l.map ContentItem.withText)) = String.intercalate " " l) ∧
    extractPromptText (.str "hello") = "hello" ∧
    extractPromptText (.seq [.withText "a", .withText "b"]) = "a b" := by
  refine ⟨fun s => rfl, fun t => rfl, fun l => ?_, rfl, by decide⟩
  have hmap : List.map itemText (List.map ContentItem.withText l) = l := by
    rw [List.map_map]
    exact List.map_id'' (fun x => rfl) l
  rw [extractPromptText, hmap]

/-- Claim C7: the teardown loop of `connect_to_servers_and_run` attempts to
release every acquired context in exact reverse acquisition order; a release
failure is caught inside the loop, so every context acquired before a
failing one is still released; and on the transport-then-session pairs the
connect loop acquires, the resulting order closes each session before its
underlying transport (it coincides with the spec-side release order). -/
theorem shutdown_reverse_order :
    (∀ ctxs : List AcquiredCtx,
      (shutdownContexts ctxs).map ReleaseEvent.ctx = ctxs.reverse) ∧
    (∀ (ctxs₁ : List AcquiredCtx) (R : AcquiredCtx) (ctxs₂ : List AcquiredCtx),
      R.releaseOk = false → ∀ c ∈ ctxs₁,
        (⟨c, c.releaseOk⟩ : ReleaseEvent) ∈ shutdownContexts (ctxs₁ ++ R :: ctxs₂)) ∧
    (∀ servers : List ChatServer,
      shutdownContexts (chatbotContexts servers) = specShutdownOrder servers) := by
  refine ⟨?_, ?_, shutdown_chatbot_eq⟩
  · intro ctxs
    rw [shutdownContexts, releaseLoop_map]
  · intro ctxs₁ R ctxs₂ _ c hc
    apply releaseLoop_mem
    rw [List.mem_reverse]
    exact List.mem_append_left _ hc

/-- Witness for C7: with two acquired contexts of which the later-acquired
session context fails to release, the earlier transport context is still
released. -/
theorem shutdown_reverse_order_witness :
    (⟨⟨.transport, "a", true⟩, true⟩ : ReleaseEvent) ∈
      shutdownContexts [⟨.transport, "a", true⟩, ⟨.session, "a", false⟩] :=
  shutdown_reverse_order.2.1 [⟨.transport, "a", true⟩] ⟨.session, "a", false⟩ [] rfl
    ⟨.transport, "a", true⟩ (by simp)

/-- Claim C2: when two connected servers each expose a tool named `X`, the
routing map built by the connect phase sends `X` to the later-discovered
server, while the flattened `available_tools` list keeps one entry per
exposing server, i.e. both entries with the duplicate name. -/
theorem duplicate_tool_name_last_writer_wins (X d1 p1 d2 p2 n1 n2 : String) :
    alookup (connectAll [simpleSpec n1 [⟨X, d1, p1⟩], simpleSpec n2 [⟨X, d2, p2⟩]]).tool_to_server X =
      some n2 ∧
    (connectAll [simpleSpec n1 [⟨X, d1, p1⟩], simpleSpec n2 [⟨X, d2, p2⟩]]).available_tools =
      [⟨X, d1, p1⟩, ⟨X, d2, p2⟩] ∧
    ((connectAll [simpleSpec n1 [⟨X, d1, p1⟩], simpleSpec n2 [⟨X, d2, p2⟩]]).available_tools.filter
      (fun e => e.name == X)).length = 2 := by
  obtain ⟨stA, hpA, _, _, havA, hmapA⟩ :=
    connectStep_success initState (simpleSpec n1 [⟨X, d1, p1⟩]) [⟨X, d1, p1⟩] rfl rfl rfl
  obtain ⟨stB, hpB, _, _, havB, hmapB⟩ :=
    connectStep_success stA (simpleSpec n2 [⟨X, d2, p2⟩]) [⟨X, d2, p2⟩] rfl rfl rfl
  have hall : connectAll [simpleSpec n1 [⟨X, d1, p1⟩], simpleSpec n2 [⟨X, d2, p2⟩]] = stB := by
    simp [connectAll, runConnect, hpA, hpB]
  have hav : stB.available_tools = [⟨X, d1, p1⟩, ⟨X, d2, p2⟩] := by
    rw [havB, havA]
    simp [initState, toolEntryOf]
  rw [hall]
  refine ⟨?_, hav, ?_⟩
  · rw [hmapB X]
    have : ∃ x ∈ [(⟨X, d2, p2⟩ : MCPTool)], x.name = X := ⟨⟨X, d2, p2⟩, by simp, rfl⟩
    simp [this, simpleSpec]
  · rw [hav]
    simp

/-- Claim C9: `get_tool_schema` returns the parameters of the first
`available_tools` entry whose function name matches, and `none` when no
entry matches; consequently, for a tool name exposed by two servers the
schema comes from the first-discovered server while the routing map used by
`call_tool` points to the last-discovered one. -/
theorem get_tool_schema_first_match :
    (∀ (st : ManagerState) (name : String) (pre : List ToolEntry) (e : ToolEntry)
      (post : List ToolEntry), st.available_tools = pre ++ e :: post →
      (∀ x ∈ pre, x.name ≠ name) → e.name = name →
      get_tool_schema st name = some e.parameters) ∧
    (∀ (st : ManagerState) (name : String),
      (∀ e ∈ st.available_tools, e.name ≠ name) → get_tool_schema st name = none) ∧
    (∀ X d1 p1 d2 p2 n1 n2 : String,
      get_tool_schema (connectAll [simpleSpec n1 [⟨X, d1, p1⟩], simpleSpec n2 [⟨X, d2, p2⟩]]) X =
        some p1 ∧
      alookup (connectAll [simpleSpec n1 [⟨X, d1, p1⟩], simpleSpec n2 [⟨X, d2, p2⟩]]).tool_to_server X =
        some n2) := by
  refine ⟨?_, ?_, ?_⟩
  · intro st name pre e post hav hpre he
    have hfind : (pre ++ e :: post).find? (fun x => x.name == name) = some e := by
      apply find?_first
      · intro y hy
        simpa using hpre y hy
      · simpa using he
    rw [get_tool_schema, hav, hfind]
  · intro st name h
    have hfind : st.available_tools.find? (fun x => x.name == name) = none := by
      rw [List.find?_eq_none]
      intro x hx
      simpa using h x hx
    rw [get_tool_schema, hfind]
  · intro X d1 p1 d2 p2 n1 n2
    obtain ⟨stA, hpA, _, _, havA, hmapA⟩ :=
      connectStep_success initState (simpleSpec n1 [⟨X, d1, p1⟩]) [⟨X, d1, p1⟩] rfl rfl rfl
    obtain ⟨stB, hpB, _, _, havB, hmapB⟩ :=
      connectStep_success stA (simpleSpec n2 [⟨X, d2, p2⟩]) [⟨X, d2, p2⟩] rfl rfl rfl
    have hall : connectAll [simpleSpec n1 [⟨X, d1, p1⟩], simpleSpec n2 [⟨X, d2, p2⟩]] = stB := by
      simp [connectAll, runConnect, hpA, hpB]
    have hav : stB.available_tools = [⟨X, d1, p1⟩, ⟨X, d2, p2⟩] := by
      rw [havB, havA]
      simp [initState, toolEntryOf]
    rw [hall]
    constructor
    · rw [get_tool_schema, hav]
      simp [List.find?_cons]
    · rw [hmapB X]
      have : ∃ x ∈ [(⟨X, d2, p2⟩ : MCPTool)], x.name = X := ⟨⟨X, d2, p2⟩, by simp, rfl⟩
      simp [this, simpleSpec]

/-- Witness for C9: the two schema-bearing conjuncts applied at a concrete
two-entry presentation list. -/
theorem get_tool_schema_first_match_witness :
    get_tool_schema
      { initState with available_tools := [⟨"t", "d1", "s1"⟩, ⟨"t", "d2", "s2"⟩] } "t" =
        some "s1" ∧
    get_tool_schema
      { initState with available_tools := [⟨"u", "d1", "s1"⟩] } "t" = none :=
  ⟨get_tool_schema_first_match.1
      { initState with available_tools := [⟨"t", "d1", "s1"⟩, ⟨"t", "d2", "s2"⟩] } "t"
      [] ⟨"t", "d1", "s1"⟩ [⟨"t", "d2", "s2"⟩] rfl (by simp) rfl,
    get_tool_schema_first_match.2.1
      { initState with available_tools := [⟨"u", "d1", "s1"⟩] } "t" (by decide)⟩

/-- Counterexample to C4 as stated: after connecting a server configured
with the empty string as name, the routing map contains the tool `t`
(mapped to server `""`, whose session is registered), yet `call_tool`
raises the unknown-tool error instead of proxying, because
`if not server_name:` also fires on the empty string. -/
theorem call_tool_empty_name_counterexample :
    alookup (connectAll [emptyNameSpec]).tool_to_server "t" = some "" ∧
    alookup (connectAll [emptyNameSpec]).sessions "" = some 0 ∧
    call_tool (connectAll [emptyNameSpec]) "t" "args" = .unknownToolError "t" := by
  decide

/-- Claim C4, amended: a tool name absent from the routing map makes
`call_tool` fail with the unknown-tool error without contacting any
session; a name mapped to a non-empty server name whose session is
registered is proxied unmodified to that session; a name mapped to the
empty server name is likewise rejected as unknown. -/
theorem call_tool_routing_amended (st : ManagerState) (name args : String) :
    (alookup st.tool_to_server name = none →
      call_tool st name args = .unknownToolError name) ∧
    (alookup st.tool_to_server name = some "" →
      call_tool st name args = .unknownToolError name) ∧
    (∀ (srv : String) (sid : Nat), alookup st.tool_to_server name = some srv →
      srv ≠ "" → alookup st.sessions srv = some sid →
      call_tool st name args = .proxied sid name args) := by
  refine ⟨?_, ?_, ?_⟩
  · intro h
    rw [call_tool, h]
  · intro h
    rw [call_tool, h]
    simp
  · intro srv sid h hne hsess
    rw [call_tool, h]
    simp [hne, hsess]

/-- Witness for C4 (amended): the miss case and the proxy case at concrete
states. -/
theorem call_tool_routing_amended_witness :
    call_tool initState "t" "args" = .unknownToolError "t" ∧
    call_tool
      { initState with tool_to_server := [("t", "srv")], sessions := [("srv", 7)] }
      "t" "args" = .proxied 7 "t" "args" :=
  ⟨(call_tool_routing_amended initState "t" "args").1 (by decide),
    (call_tool_routing_amended
      { initState with tool_to_server := [("t", "srv")], sessions := [("srv", 7)] }
      "t" "args").2.2 "srv" 7 (by decide) (by decide) (by decide)⟩

/-- Counterexample to C5 as stated: with an exact resource entry present
(registered by a server named `""`, whose session exists) the template scan
still runs, because `if not server_name:` also fires on the empty string:
resolution returns the template owner `A` and `get_resource` contacts the
session of `A`, not the exact-match owner. -/
theorem resource_resolution_truthiness_counterexample :
    alookup (connectAll [emptyNameResourceSpec, templateServerSpec]).resource_to_server
      "papers://x" = some "" ∧
    alookup (connectAll [emptyNameResourceSpec, templateServerSpec]).sessions "" = some 0 ∧
    resolveResourceServer (connectAll [emptyNameResourceSpec, templateServerSpec])
      "papers://x" = some "A" ∧
    get_resource (connectAll [emptyNameResourceSpec, templateServerSpec])
      "papers://x" = .read 1 "papers://x" := by
  decide

/-- Claim C5, amended: resolution performs the exact lookup first and the
template scan runs when that lookup returns no server or the empty server
name; a non-empty exact match is returned directly; otherwise the first
template, in discovery order, whose literal head (the substring before the
first opening brace) is a prefix of the URI wins; in particular, with the
template `papers://` + `topic` + `/list` registered for server `research`
and no exact match, `papers://ml/list` resolves to `research`. -/
theorem resource_resolution_amended :
    (∀ (st : ManagerState) (uri : String) (pre : List (String × String))
      (p : String × String) (post : List (String × String)),
      alookup st.resource_to_server uri = none →
      st.resource_templates_to_server = pre ++ p :: post →
      (∀ q ∈ pre, pyStartsWith uri (templateHead q.1) = false) →
      pyStartsWith uri (templateHead p.1) = true →
      resolveResourceServer st uri = some p.2) ∧
    (∀ (st : ManagerState) (uri srv : String),
      alookup st.resource_to_server uri = some srv → srv ≠ "" →
      resolveResourceServer st uri = some srv) ∧
    (∀ (st : ManagerState) (uri : String),
      alookup st.resource_to_server uri = none →
      st.resource_templates_to_server.find?
        (fun q => pyStartsWith uri (templateHead q.1)) = none →
      resolveResourceServer st uri = none) ∧
    resolveResourceServer (connectAll [researchSpec]) "papers://ml/list" = some "research" := by
  refine ⟨?_, ?_, ?_, by decide⟩
  · intro st uri pre p post hnone htmpl hpre hp
    have hfind : (pre ++ p :: post).find? (fun q => pyStartsWith uri (templateHead q.1)) =
        some p := find?_first _ pre p post hpre hp
    simp [resolveResourceServer, hnone, htmpl, hfind]
  · intro st uri srv h hne
    simp [resolveResourceServer, h, hne]
  · intro st uri hnone hfind
    simp [resolveResourceServer, hnone, hfind]

/-- Witness for C5 (amended): a genuine template hit and a non-empty exact
hit at concrete states. -/
theorem resource_resolution_amended_witness :
    resolveResourceServer (connectAll [researchSpec]) "papers://quantum/list" =
      some "research" ∧
    resolveResourceServer { initState with resource_to_server := [("res://a", "B")] }
      "res://a" = some "B" :=
  ⟨resource_resolution_amended.1 (connectAll [researchSpec]) "papers://quantum/list" []
      ("papers://\x7btopic\x7d/list", "research") [] (by decide) (by decide) (by simp)
      (by decide),
    resource_resolution_amended.2.1
      { initState with resource_to_server := [("res://a", "B")] } "res://a" "B"
      (by decide) (by decide)⟩

/-- Claim C10: when neither the exact resource map nor the template scan
resolves a server for a URI, `get_resource` falls back to the session
registered under the hardcoded name `research` when the URI starts with
`papers://` (reporting not-found if that session does not exist), and for
any other unresolved URI reports not-found without contacting any
session. -/
theorem get_resource_papers_fallback (st : ManagerState) (uri : String)
    (h : resolveResourceServer st uri = none) :
    (pyStartsWith uri "papers://" = true →
      get_resource st uri =
        (match alookup st.sessions "research" with
          | some sid => .read sid uri
          | none => .notFound)) ∧
    (pyStartsWith uri "papers://" = false → get_resource st uri = .notFound) := by
  constructor
  · intro hp
    simp only [get_resource, h, Option.none_bind]
    simp only [hp]
    cases halo : alookup st.sessions "research" <;> simp [halo]
  · intro hp
    simp only [get_resource, h, Option.none_bind]
    simp [hp]

/-- Witness for C10: with only a capability-free `research` server
connected, an unresolved `papers://` URI reaches the research session and
an unresolved URI with another scheme is reported not found. -/
theorem get_resource_papers_fallback_witness :
    get_resource (connectAll [bareResearchSpec]) "papers://folders" =
      .read 0 "papers://folders" ∧
    get_resource (connectAll [bareResearchSpec]) "other://x" = .notFound := by
  constructor
  · rw [(get_resource_papers_fallback (connectAll [bareResearchSpec]) "papers://folders"
      (by decide)).1 (by decide)]
    decide
  · exact (get_resource_papers_fallback (connectAll [bareResearchSpec]) "other://x"
      (by decide)).2 (by decide)

/-- Claim C1: when one descriptor `k` fails (missing url, transport or
session-initialization exception, or a raised mandatory `list_tools`),
`connect_all` still attempts every descriptor of the list (the outcome
trace covers all of them), and every other descriptor that succeeds gets
its session registered and each of its tools discovered into the
presentation list and the routing map. -/
theorem connect_all_partial_failure_isolation
    (pre post : List ServerSpec) (k s : ServerSpec) (ts : List MCPTool)
    (_hk : urlMissing k = true ∨ k.connectOk = false ∨ k.toolsResult = .err)
    (hs : s ∈ pre ++ post)
    (hu : urlMissing s = false) (hc : s.connectOk = true)
    (ht : s.toolsResult = .ok ts) :
    (connectTrace (pre ++ k :: post)).length = pre.length + 1 + post.length ∧
    (alookup (connectAll (pre ++ k :: post)).sessions s.name).isSome = true ∧
    ∀ t ∈ ts, toolEntryOf t ∈ (connectAll (pre ++ k :: post)).available_tools ∧
      (alookup (connectAll (pre ++ k :: post)).tool_to_server t.name).isSome = true := by
  have hmem : s ∈ pre ++ k :: post := by
    rcases List.mem_append.mp hs with h | h
    · exact List.mem_append_left _ h
    · exact List.mem_append_right _ (List.mem_cons_of_mem k h)
  have hreach := runConnect_reaches (pre ++ k :: post) initState s ts hmem hu hc ht
  refine ⟨?_, hreach.1, hreach.2⟩
  rw [connectTrace, runConnect_trace]
  simp
  omega

/-- Witness for C1: the middle of three servers raises during `list_tools`;
both neighbours still end up connected with their tools registered. -/
theorem connect_all_partial_failure_isolation_witness :
    (connectTrace [simpleSpec "a" [⟨"ta", "d", "s"⟩], toolsErrSpec,
      simpleSpec "b" [⟨"tb", "d", "s"⟩]]).length = 3 ∧
    (alookup (connectAll [simpleSpec "a" [⟨"ta", "d", "s"⟩], toolsErrSpec,
      simpleSpec "b" [⟨"tb", "d", "s"⟩]]).sessions "b").isSome = true ∧
    toolEntryOf ⟨"tb", "d", "s"⟩ ∈ (connectAll [simpleSpec "a" [⟨"ta", "d", "s"⟩],
      toolsErrSpec, simpleSpec "b" [⟨"tb", "d", "s"⟩]]).available_tools ∧
    (alookup (connectAll [simpleSpec "a" [⟨"ta", "d", "s"⟩], toolsErrSpec,
      simpleSpec "b" [⟨"tb", "d", "s"⟩]]).tool_to_server "tb").isSome = true := by
  have h := connect_all_partial_failure_isolation
    [simpleSpec "a" [⟨"ta", "d", "s"⟩]] [simpleSpec "b" [⟨"tb", "d", "s"⟩]]
    toolsErrSpec (simpleSpec "b" [⟨"tb", "d", "s"⟩]) [⟨"tb", "d", "s"⟩]
    (Or.inr (Or.inr rfl)) (by simp) rfl rfl rfl
  exact ⟨h.1, h.2.1, (h.2.2 ⟨"tb", "d", "s"⟩ (by simp)).1, (h.2.2 ⟨"tb", "d", "s"⟩ (by simp)).2⟩

/-- Claim C3: during capability discovery a raised `list_resources`,
`list_resource_templates`, or `list_prompts` is swallowed — that kind
contributes zero entries for the server while the remaining kinds are still
discovered — whereas a raised `list_tools` aborts discovery with `none`,
and inside `connect_all` such a failure is recorded as a per-server
connection failure. -/
theorem discovery_fault_tolerance :
    (∀ (srv : String) (s : ServerSpec) (st : ManagerState),
      s.toolsResult = .err → discoverCapabilities srv s st = none) ∧
    (∀ (srv : String) (s : ServerSpec) (st : ManagerState) (ts : List MCPTool),
      s.toolsResult = .ok ts → s.resourcesResult = .err →
      ∃ st', discoverCapabilities srv s st = some st' ∧
        st'.available_resources = st.available_resources ∧
        st'.available_tools = st.available_tools ++ ts.map toolEntryOf ∧
        st'.available_resource_templates = st.available_resource_templates ++
          (match s.templatesResult with | .ok l => l | .err => []) ∧
        st'.available_prompts = st.available_prompts ++
          (match s.promptsResult with | .ok l => l.map promptEntryOf | .err => [])) ∧
    (∀ (srv : String) (s : ServerSpec) (st : ManagerState) (ts : List MCPTool),
      s.toolsResult = .ok ts → s.templatesResult = .err →
      ∃ st', discoverCapabilities srv s st = some st' ∧
        st'.available_resource_templates = st.available_resource_templates ∧
        st'.available_tools = st.available_tools ++ ts.map toolEntryOf ∧
        st'.available_resources = st.available_resources ++
          (match s.resourcesResult with | .ok l => l | .err => []) ∧
        st'.available_prompts = st.available_prompts ++
          (match s.promptsResult with | .ok l => l.map promptEntryOf | .err => [])) ∧
    (∀ (srv : String) (s : ServerSpec) (st : ManagerState) (ts : List MCPTool),
      s.toolsResult = .ok ts → s.promptsResult = .err →
      ∃ st', discoverCapabilities srv s st = some st' ∧
        st'.available_prompts = st.available_prompts ∧
        st'.available_tools = st.available_tools ++ ts.map toolEntryOf ∧
        st'.available_resources = st.available_resources ++
          (match s.resourcesResult with | .ok l => l | .err => []) ∧
        st'.available_resource_templates = st.available_resource_templates ++
          (match s.templatesResult with | .ok l => l | .err => [])) ∧
    (∀ (st : ManagerState) (s : ServerSpec), urlMissing s = false →
      s.connectOk = true → s.toolsResult = .err →
      (connectStep st s).2 = ⟨true, true⟩ ∧
      (connectStep st s).1.errors = st.errors ++ [s.name]) := by
  refine ⟨?_, ?_, ?_, ?_, ?_⟩
  · intro srv s st h
    simp [discoverCapabilities, h]
  · intro srv s st ts htools hres
    obtain ⟨st', hd, _, _, _, hav, _, hres2, htm2, hpr2⟩ := discover_ok srv s st ts htools
    refine ⟨st', hd, ?_, hav, htm2, hpr2⟩
    rw [hres2, hres]
    simp
  · intro srv s st ts htools htm
    obtain ⟨st', hd, _, _, _, hav, _, hres2, htm2, hpr2⟩ := discover_ok srv s st ts htools
    refine ⟨st', hd, ?_, hav, hres2, hpr2⟩
    rw [htm2, htm]
    simp
  · intro srv s st ts htools hpr
    obtain ⟨st', hd, _, _, _, hav, _, hres2, htm2, hpr2⟩ := discover_ok srv s st ts htools
    refine ⟨st', hd, ?_, hav, hres2, htm2⟩
    rw [hpr2, hpr]
    simp
  · intro st s hu hc htr
    rw [connectStep_toolsErr st s hu hc htr]
    exact ⟨rfl, rfl⟩

/-- Witness for C3: a raised `list_tools` propagates; a raised
`list_resources` leaves the resource list empty while tools and prompts of
the same server are still registered. -/
theorem discovery_fault_tolerance_witness :
    discoverCapabilities "srv" toolsErrSpec initState = none ∧
    ∃ st', discoverCapabilities "r" resErrSpec initState = some st' ∧
      st'.available_resources = [] ∧
      st'.available_tools = [⟨"t", "d", "s"⟩] ∧
      st'.available_prompts = [⟨"p", "d", ["x"]⟩] := by
  constructor
  · exact discovery_fault_tolerance.1 "srv" toolsErrSpec initState rfl
  · obtain ⟨st', hd, hres, hav, _, hpr⟩ :=
      discovery_fault_tolerance.2.1 "r" resErrSpec initState [⟨"t", "d", "s"⟩] rfl rfl
    refine ⟨st', hd, ?_, ?_, ?_⟩
    · rw [hres]
      rfl
    · rw [hav]
      simp [initState, toolEntryOf]
    · rw [hpr]
      rfl

/-- Counterexample to C6 as stated: a server that connects and initializes
but whose mandatory `list_tools` raises ends the connect phase with BOTH a
registered session under its name and a recorded per-server error. -/
theorem connect_outcome_both_counterexample :
    connectTrace [toolsErrSpec] = [(toolsErrSpec, ⟨true, true⟩)] ∧
    alookup (connectAll [toolsErrSpec]).sessions "srv" = some 0 ∧
    (connectAll [toolsErrSpec]).errors = ["srv"] := by
  decide

/-- Claim C6, amended: every descriptor processed by `connect_all` ends
with a registered session or a recorded per-server error — never neither —
and both occur exactly when the url check and connection succeed but the
mandatory tool listing then fails (the session registered before discovery
is kept while the failure is recorded). -/
theorem connect_outcome_amended (specs : List ServerSpec) (s : ServerSpec) (o : DescOutcome)
    (h : (s, o) ∈ connectTrace specs) :
    (o.registered = true ∨ o.errored = true) ∧
    ((o.registered = true ∧ o.errored = true) ↔
      (urlMissing s = false ∧ s.connectOk = true ∧ s.toolsResult = .err)) := by
  have htr : connectTrace specs = specs.map (fun x => (x, outcomeOf x)) :=
    runConnect_trace specs initState
  rw [htr] at h
  obtain ⟨s', _, heq⟩ := List.mem_map.mp h
  have h1 : s' = s := congrArg Prod.fst heq
  have h2 : outcomeOf s' = o := congrArg Prod.snd heq
  subst h1
  subst h2
  cases hu : urlMissing s'
  · cases hc : s'.connectOk
    · simp [outcomeOf, hu, hc]
    · cases ht : s'.toolsResult
      · simp [outcomeOf, hu, hc, ht]
      · simp [outcomeOf, hu, hc, ht]
  · simp [outcomeOf, hu]

/-- Witness for C6 (amended): a cleanly connecting server yields the
session-only outcome, which satisfies both conjuncts. -/
theorem connect_outcome_amended_witness :
    ((DescOutcome.mk true false).registered = true ∨
      (DescOutcome.mk true false).errored = true) ∧
    (((DescOutcome.mk true false).registered = true ∧
      (DescOutcome.mk true false).errored = true) ↔
      (urlMissing (simpleSpec "a" []) = false ∧ (simpleSpec "a" []).connectOk = true ∧
        (simpleSpec "a" []).toolsResult = .err)) :=
  connect_outcome_amended [simpleSpec "a" []] (simpleSpec "a" []) ⟨true, false⟩ (by decide)
